import Mathlib

/-!
# Verification of the photo grouping service

Shallow embedding of `src/services/photoGroupingService.ts` (photo grouping
engine: perceptual dHash fingerprinting, Hamming-distance similarity, two
clustering strategies, and the manual merge/split correction operations),
together with proofs and refutations of the specification's claims about it.

Conventions of the embedding:
* JavaScript numbers are modelled as `ℚ` (all arithmetic in this service is
  exact decimal/rational arithmetic: sums, divisions by small integers,
  products with 0.9 — no rounding behaviour is relied upon).
* A thrown exception is modelled as `Option.none` / an `Option`-valued result.
* `async` functions performing file IO (`sharp` image decoding) are modelled
  by abstracting the IO step as a function argument: `hashOf : String →
  Option String` stands for `generatePhotoHash`, returning `none` when the
  file cannot be read or decoded, and `Promise.all` over the batch is
  `List.mapM` into `Option` (one rejection rejects the whole batch).
-/

/-- `PhotoGroup` record from the source (`id`, `photos`, `primaryPhoto`,
`confidence`). Confidence is a JS number, modelled as `ℚ`. -/
structure PhotoGroup where
  id : String
  photos : List String
  primaryPhoto : String
  confidence : ℚ
deriving DecidableEq, Repr

/-- `PhotoHash` record from the source: a photo path paired with its
perceptual hash (a string of `'0'`/`'1'` characters). -/
structure PhotoHash where
  path : String
  hash : String
deriving DecidableEq, Repr

/-! ## Fingerprinting (`generatePhotoHash`)

The source decodes the image with `sharp`, resizes it to a 9×8 grayscale
raw buffer `data`, then computes the difference hash from that buffer.  The
decode step is IO; the pure hash computation on the decoded buffer is
embedded below, with the buffer abstracted as `data : ℕ → ℕ` (byte at a
given offset). -/

/-- The pure core of `generatePhotoHash` (lines 49–58 of the source):
for each of the 8 rows and each of the first 8 columns of the 9×8 grayscale
buffer, emit `'1'` if the left pixel is strictly greater than its right-hand
neighbour and `'0'` otherwise, in row-major order, and join into a string. -/
def generatePhotoHash (data : ℕ → ℕ) : String :=
  String.mk <|
    (List.range 8).flatMap fun row =>
      (List.range 8).map fun col =>
        if data (row * 9 + col) > data (row * 9 + col + 1) then '1' else '0'

/-! ## Distance and similarity -/

/-- The loop body of `calculateHammingDistance`: count positions where the
two character lists differ (the source walks index `i` over the common
length; both call sites guarantee equal lengths, enforced by the explicit
length check). -/
def countDiff : List Char → List Char → ℕ
  | a :: as, b :: bs => (if a ≠ b then 1 else 0) + countDiff as bs
  | _, _ => 0

/-- `calculateHammingDistance`: throws (`none`) when the two hashes have
different lengths, otherwise counts differing positions. -/
def calculateHammingDistance (hash1 hash2 : String) : Option ℕ :=
  if hash1.length ≠ hash2.length then none
  else some (countDiff hash1.data hash2.data)

/-- `calculateSimilarity`: `1 - distance / hash1.length` (propagating the
length-mismatch exception of `calculateHammingDistance`). -/
def calculateSimilarity (hash1 hash2 : String) : Option ℚ :=
  (calculateHammingDistance hash1 hash2).map fun distance =>
    1 - (distance : ℚ) / (hash1.length : ℚ)

/-- Total version of `calculateSimilarity`, used inside the clustering
pipeline where every hash comes from `generatePhotoHash` and therefore has
exactly 64 characters, so the length-mismatch throw cannot fire
(`calculateSimilarity_eq_of_length_eq` below records the agreement). -/
def similarityT (hash1 hash2 : String) : ℚ :=
  1 - (countDiff hash1.data hash2.data : ℚ) / (hash1.length : ℚ)

/-! ## Correction operations -/

/-- `mergeGroups` (source lines 259–266): keep `g1`'s id and primary photo,
concatenate the photo lists (`g1` first), confidence
`min(g1.confidence, g2.confidence) * 0.9`. -/
def mergeGroups (group1 group2 : PhotoGroup) : PhotoGroup :=
  { id := group1.id
    photos := group1.photos ++ group2.photos
    primaryPhoto := group1.primaryPhoto
    confidence := min group1.confidence group2.confidence * 0.9 }

/-- JavaScript `x || y` applied to `updatedPhotos[0]`: out-of-range
indexing yields `undefined` (here `none`) which is falsy, and the empty
string is also falsy; both fall back to `y`. -/
def jsHeadOr (x : Option String) (y : String) : String :=
  match x with
  | some v => if v = "" then y else v
  | none => y

/-- `splitPhotoFromGroup` (source lines 272–293): remove `photoPath` from
the group's photos (no membership check), primary photo
`updatedPhotos[0] || group.primaryPhoto`, confidence `* 0.9`; the new group
is a singleton `[photoPath]` with id `group.id + "-split"` and confidence
`0.5`. -/
def splitPhotoFromGroup (group : PhotoGroup) (photoPath : String) :
    PhotoGroup × PhotoGroup :=
  let updatedPhotos := group.photos.filter fun p => p ≠ photoPath
  ({ id := group.id
     photos := updatedPhotos
     primaryPhoto := jsHeadOr updatedPhotos.head? group.primaryPhoto
     confidence := group.confidence * 0.9 },
   { id := group.id ++ "-split"
     photos := [photoPath]
     primaryPhoto := photoPath
     confidence := 0.5 })

/-! ## Clustering

Both strategies in the source walk the photo list with an outer index `i`
and a mutable `assigned : Set<number>`: each unassigned photo seeds a new
group, then the inner loop scans the *later unassigned* photos in order and
absorbs the ones passing the acceptance test.  Equivalently (and this is
how it is embedded): the head of the not-yet-assigned list seeds a group,
the acceptance test splits the remaining unassigned list into absorbed and
still-unassigned photos (preserving order), and clustering recurses on the
still-unassigned list.  The recursion is fuelled by the input length so the
functions stay structurally recursive (the fuel is always sufficient:
the still-unassigned list is a filtering of the tail). -/

/-- Acceptance test of the greedy single-linkage strategy: similarity of
the candidate to the *seed*'s hash is `>= threshold`. -/
def greedyAccept (threshold : ℚ) (seed cand : PhotoHash) : Bool :=
  decide (similarityT seed.hash cand.hash ≥ threshold)

/-- Greedy single-linkage clustering (`groupPhotosByItem`, source lines
114–147), as lists of `PhotoHash`: seed with the first unassigned photo,
absorb every later unassigned photo whose similarity to the seed passes the
threshold, recurse on the rest. -/
def greedyClusterAux (threshold : ℚ) : ℕ → List PhotoHash → List (List PhotoHash)
  | 0, _ => []
  | _ + 1, [] => []
  | fuel + 1, seed :: rest =>
      (seed :: rest.filter (greedyAccept threshold seed)) ::
        greedyClusterAux threshold fuel
          (rest.filter fun c => ! greedyAccept threshold seed c)

def greedyCluster (photoHashes : List PhotoHash) (threshold : ℚ) :
    List (List PhotoHash) :=
  greedyClusterAux threshold photoHashes.length photoHashes

/-- Average similarity of a candidate to every photo already in the growing
group (source lines 203–208): `similarityMatrix[g][j]` summed over the
current group members divided by the member count.  The matrix entries read
here always have distinct indices (a group member versus a not-yet-assigned
photo), so each equals `calculateSimilarity` of the two hashes; the
embedding recomputes instead of memoising. -/
def avgSimilarity (grp : List PhotoHash) (cand : PhotoHash) : ℚ :=
  (grp.map fun g => similarityT g.hash cand.hash).sum / (grp.length : ℚ)

/-- Inner loop of the average-linkage strategy (source lines 200–214):
scan the unassigned photos in order; absorb a candidate when its average
similarity to the current group members is `>= threshold` (the average is
re-evaluated as the group grows).  Returns the final group and the photos
left unassigned, in order. -/
def absorb (threshold : ℚ) (grp : List PhotoHash) :
    List PhotoHash → List PhotoHash × List PhotoHash
  | [] => (grp, [])
  | cand :: rest =>
      if avgSimilarity grp cand ≥ threshold then
        absorb threshold (grp ++ [cand]) rest
      else
        ((absorb threshold grp rest).1, cand :: (absorb threshold grp rest).2)

/-- Average-linkage clustering (`groupPhotosByItemAdvanced`, source lines
189–224), as lists of `PhotoHash`. -/
def advancedClusterAux (threshold : ℚ) : ℕ → List PhotoHash → List (List PhotoHash)
  | 0, _ => []
  | _ + 1, [] => []
  | fuel + 1, seed :: rest =>
      (absorb threshold [seed] rest).1 ::
        advancedClusterAux threshold fuel (absorb threshold [seed] rest).2

def advancedCluster (photoHashes : List PhotoHash) (threshold : ℚ) :
    List (List PhotoHash) :=
  advancedClusterAux threshold photoHashes.length photoHashes

/-! ## Confidence and group construction -/

/-- Sum of pairwise similarities over all index pairs `i < j` of the group
(source lines 245–250; again every matrix entry read has distinct
indices). -/
def sumPairs : List PhotoHash → ℚ
  | [] => 0
  | g :: rest => (rest.map fun h => similarityT g.hash h.hash).sum + sumPairs rest

/-- Number of index pairs `i < j` (the source's `pairCount`). -/
def countPairs : List PhotoHash → ℕ
  | [] => 0
  | _ :: rest => rest.length + countPairs rest

/-- `calculateGroupConfidence` (source lines 233–253): `0.5` for a
singleton, otherwise the mean pairwise similarity inside the group (with a
`0.5` fallback if there are no pairs). -/
def calculateGroupConfidence (grp : List PhotoHash) : ℚ :=
  if grp.length = 1 then 0.5
  else if 0 < countPairs grp then sumPairs grp / (countPairs grp : ℚ)
  else 0.5

/-- Greedy-strategy confidence (source line 145): `0.85` for a multi-photo
group, `0.5` for a singleton. -/
def greedyConfidence (grp : List PhotoHash) : ℚ :=
  if 1 < grp.length then 0.85 else 0.5

/-- Turn the clusters into `PhotoGroup` records (source lines 140–146 and
216–223): the `k`-th group pushed gets id `item-(k+1)`, its photos are the
cluster's paths in order, the primary photo is `photos[0]` (clusters are
always non-empty — they contain their seed — so the `""` default of
`headD` is never read), and the confidence is the strategy's. -/
def mkGroupsAux (conf : List PhotoHash → ℚ) : ℕ → List (List PhotoHash) → List PhotoGroup
  | _, [] => []
  | k, c :: cs =>
      { id := "item-" ++ toString (k + 1)
        photos := c.map PhotoHash.path
        primaryPhoto := (c.map PhotoHash.path).headD ""
        confidence := conf c } :: mkGroupsAux conf (k + 1) cs

def mkGroups (conf : List PhotoHash → ℚ) (clusters : List (List PhotoHash)) :
    List PhotoGroup :=
  mkGroupsAux conf 0 clusters

/-! ## The two public grouping entry points

`generatePhotoHash` is `async` file IO; it is abstracted as
`hashOf : String → Option String` (`none` = the promise rejects because the
path does not exist or cannot be decoded).  The source awaits
`Promise.all` over one `generatePhotoHash` call per path, which rejects as
a whole if any one call rejects: `awaitAll` below. -/

/-- `await Promise.all(xs.map(f))`: succeeds with the list of all results
exactly when every element succeeds; any single rejection rejects the
whole batch. -/
def awaitAll (f : σ → Option α) : List σ → Option (List α)
  | [] => some []
  | x :: xs =>
      match f x, awaitAll f xs with
      | some y, some ys => some (y :: ys)
      | _, _ => none

/-- `groupPhotosByItem` (source lines 98–150).  The source's default
threshold is `0.75`. -/
def groupPhotosByItem (hashOf : String → Option String)
    (photoPaths : List String) (similarityThreshold : ℚ) :
    Option (List PhotoGroup) :=
  if photoPaths.isEmpty then some []
  else
    (awaitAll (fun path => (hashOf path).map fun h => PhotoHash.mk path h) photoPaths).map
      fun photoHashes => mkGroups greedyConfidence (greedyCluster photoHashes similarityThreshold)

/-- `groupPhotosByItemAdvanced` (source lines 157–227).  The source's
default threshold is `0.70`. -/
def groupPhotosByItemAdvanced (hashOf : String → Option String)
    (photoPaths : List String) (similarityThreshold : ℚ) :
    Option (List PhotoGroup) :=
  if photoPaths.isEmpty then some []
  else
    (awaitAll (fun path => (hashOf path).map fun h => PhotoHash.mk path h) photoPaths).map
      fun photoHashes => mkGroups calculateGroupConfidence (advancedCluster photoHashes similarityThreshold)

/-! ## A concrete four-photo batch (used to refute threshold monotonicity)

Four 20-bit fingerprints with pairwise similarities
`s(1,2) = 1/2`, `s(1,3) = s(1,4) = s(3,4) = 2/5`, `s(2,3) = s(2,4) = 7/10`. -/

def cxHash (p : String) : Option String :=
  if p = "p1" then some "11000011000011111100"
  else if p = "p2" then some "00000000000000000000"
  else if p = "p3" then some "11111100000000000000"
  else some "00000011111100000000"

def cxPaths : List String := ["p1", "p2", "p3", "p4"]

/-! ## Helper lemmas -/

theorem calculateSimilarity_eq_of_length_eq {h1 h2 : String}
    (h : h1.length = h2.length) :
    calculateSimilarity h1 h2 = some (similarityT h1 h2) := by
  simp [calculateSimilarity, calculateHammingDistance, h, similarityT]

/-- Evaluation helper: compute `similarityT` from a hamming count and a
length (both decidable `ℕ` facts on concrete strings). -/
theorem similarityT_eval (h1 h2 : String) (d n : ℕ)
    (hd : countDiff h1.data h2.data = d) (hn : h1.length = n) :
    similarityT h1 h2 = 1 - (d : ℚ) / (n : ℚ) := by
  rw [similarityT, hd, hn]

theorem countDiff_self (l : List Char) : countDiff l l = 0 := by
  induction l with
  | nil => rfl
  | cons a as ih => simp [countDiff, ih]

theorem countDiff_of_forall₂_ne {l1 l2 : List Char}
    (h : List.Forall₂ (fun a b => a ≠ b) l1 l2) : countDiff l1 l2 = l1.length := by
  induction h with
  | nil => rfl
  | cons hab _ ih => simp [countDiff, *]; omega

/-! ## Theorems for the claims -/

/-- **C9.** `calculateSimilarity h h = 1.0` for every non-empty fingerprint
`h` (fingerprints are 64 bits, hence non-empty), and
`calculateSimilarity h1 h2 = 0.0` for equal-length non-empty fingerprints
that differ at every bit position. -/
theorem calculateSimilarity_self_one_and_complement_zero :
    (∀ h : String, 0 < h.length → calculateSimilarity h h = some 1) ∧
    (∀ h1 h2 : String, 0 < h1.length →
      List.Forall₂ (fun a b => a ≠ b) h1.data h2.data →
      calculateSimilarity h1 h2 = some 0) := by
  constructor
  · intro h _
    rw [calculateSimilarity, calculateHammingDistance, if_neg (by simp), countDiff_self]
    simp
  · intro h1 h2 hpos hcompl
    have hlen : h1.length = h2.length := hcompl.length_eq
    rw [calculateSimilarity, calculateHammingDistance, if_neg (by simp [hlen]),
      countDiff_of_forall₂_ne hcompl]
    have hq : (h1.length : ℚ) ≠ 0 :=
      Nat.cast_ne_zero.mpr (Nat.pos_iff_ne_zero.mp hpos)
    have hdl : (h1.data.length : ℚ) = (h1.length : ℚ) := rfl
    simp [hdl, div_self hq]

/-- Witness for C9 at the concrete fingerprints `"01"` (with itself) and
`"01"` versus its bitwise complement `"10"`. -/
theorem calculateSimilarity_self_one_and_complement_zero_witness :
    calculateSimilarity "01" "01" = some 1 ∧ calculateSimilarity "01" "10" = some 0 :=
  ⟨calculateSimilarity_self_one_and_complement_zero.1 "01" (by decide),
   calculateSimilarity_self_one_and_complement_zero.2 "01" "10" (by decide)
     (.cons (by decide) (.cons (by decide) .nil))⟩

/-- **C8.** On any decoded 9×8 grayscale buffer, the difference hash has
exactly 64 bits, and the bit at row-major position `row * 8 + col`
(for `row < 8`, `col < 8`) is `'1'` iff the pixel at `(row, col)` is
strictly brighter than its immediate right-hand neighbour. -/
theorem generatePhotoHash_spec (data : ℕ → ℕ) :
    (generatePhotoHash data).length = 64 ∧
    ∀ row col : ℕ, row < 8 → col < 8 →
      (generatePhotoHash data).data[row * 8 + col]? =
        some (if data (row * 9 + col) > data (row * 9 + col + 1) then '1' else '0') := by
  constructor
  · rfl
  · intro row col hr hc
    interval_cases row <;> interval_cases col <;> rfl

/-- Witness for C8: a concrete buffer (byte = offset mod 7) at row 3,
column 5. -/
theorem generatePhotoHash_spec_witness :
    (generatePhotoHash (fun i => i % 7)).length = 64 ∧
    (generatePhotoHash (fun i => i % 7)).data[3 * 8 + 5]? =
      some (if (3 * 9 + 5) % 7 > (3 * 9 + 5 + 1) % 7 then '1' else '0') :=
  ⟨(generatePhotoHash_spec (fun i => i % 7)).1,
   (generatePhotoHash_spec (fun i => i % 7)).2 3 5 (by decide) (by decide)⟩

/-- **C6.** `mergeGroups` concatenates the photo lists (`g1` first), keeps
`g1`'s id and primary photo, and sets confidence
`min(g1.confidence, g2.confidence) * 0.9`, which is at most the min when
both confidences are non-negative. -/
theorem mergeGroups_spec (g1 g2 : PhotoGroup) :
    (mergeGroups g1 g2).photos = g1.photos ++ g2.photos ∧
    (mergeGroups g1 g2).photos.length = g1.photos.length + g2.photos.length ∧
    (mergeGroups g1 g2).id = g1.id ∧
    (mergeGroups g1 g2).primaryPhoto = g1.primaryPhoto ∧
    (mergeGroups g1 g2).confidence = min g1.confidence g2.confidence * 0.9 ∧
    (0 ≤ g1.confidence → 0 ≤ g2.confidence →
      (mergeGroups g1 g2).confidence ≤ min g1.confidence g2.confidence) := by
  refine ⟨rfl, by simp [mergeGroups], rfl, rfl, rfl, fun hc1 hc2 => ?_⟩
  have hmin : 0 ≤ min g1.confidence g2.confidence := le_min hc1 hc2
  calc min g1.confidence g2.confidence * 0.9
      ≤ min g1.confidence g2.confidence * 1 := by
        apply mul_le_mul_of_nonneg_left _ hmin; norm_num
    _ = min g1.confidence g2.confidence := mul_one _

/-- Witness for C6's conditional part at two concrete groups with
non-negative confidences. -/
theorem mergeGroups_spec_witness :
    (mergeGroups ⟨"item-1", ["a", "b"], "a", 9/10⟩ ⟨"item-2", ["c"], "c", 1/2⟩).confidence ≤
      min (9/10 : ℚ) (1/2) :=
  (mergeGroups_spec ⟨"item-1", ["a", "b"], "a", 9/10⟩ ⟨"item-2", ["c"], "c", 1/2⟩).2.2.2.2.2
    (by norm_num) (by norm_num)

/-- **C2 counterexample.** `splitPhotoFromGroup` performs *no* membership
check: called on the group `{id := "item-1", photos := ["a.jpg"],
primaryPhoto := "a.jpg", confidence := 1}` with the absent path `"b.jpg"`
it does not fail — it lowers the group's confidence from `1` to `0.9` and
creates a new group containing `"b.jpg"`, contradicting "fails with a
NotFound error and performs no mutation". -/
theorem splitPhotoFromGroup_no_notfound_counterexample :
    "b.jpg" ∉ (PhotoGroup.mk "item-1" ["a.jpg"] "a.jpg" 1).photos ∧
    (splitPhotoFromGroup ⟨"item-1", ["a.jpg"], "a.jpg", 1⟩ "b.jpg").1.confidence = 9/10 ∧
    (splitPhotoFromGroup ⟨"item-1", ["a.jpg"], "a.jpg", 1⟩ "b.jpg").2.photos = ["b.jpg"] := by
  refine ⟨by decide, ?_, by decide⟩
  norm_num [splitPhotoFromGroup]

/-- **C2 amended.** On a path not present in the group,
`splitPhotoFromGroup` silently proceeds: the returned `updatedGroup` keeps
the same photo list (the filter removes nothing) but its confidence is
multiplied by `0.9` and its primary photo is recomputed as
`photos[0] || primaryPhoto`, and a new singleton group containing the
foreign path is created with id `g.id ++ "-split"` and confidence `0.5`. -/
theorem splitPhotoFromGroup_not_mem (g : PhotoGroup) (p : String)
    (h : p ∉ g.photos) :
    splitPhotoFromGroup g p =
      ({ id := g.id
         photos := g.photos
         primaryPhoto := jsHeadOr g.photos.head? g.primaryPhoto
         confidence := g.confidence * 0.9 },
       { id := g.id ++ "-split", photos := [p], primaryPhoto := p, confidence := 0.5 }) := by
  have hf : g.photos.filter (fun q => q ≠ p) = g.photos := by
    rw [List.filter_eq_self]
    intro a ha
    simp only [decide_eq_true_eq]
    exact fun e => h (e ▸ ha)
  simp only [splitPhotoFromGroup]
  rw [hf]

/-- Witness for C2's amended claim at a concrete group and foreign path. -/
theorem splitPhotoFromGroup_not_mem_witness :
    splitPhotoFromGroup ⟨"item-1", ["a.jpg"], "a.jpg", 1⟩ "b.jpg" =
      (⟨"item-1", ["a.jpg"], "a.jpg", 9/10⟩,
       ⟨"item-1-split", ["b.jpg"], "b.jpg", 1/2⟩) := by
  rw [splitPhotoFromGroup_not_mem ⟨"item-1", ["a.jpg"], "a.jpg", 1⟩ "b.jpg" (by decide)]
  have h1 : "item-1" ++ "-split" = "item-1-split" := by decide
  have h2 : jsHeadOr (["a.jpg"].head?) "a.jpg" = "a.jpg" := by decide
  simp only [h1, h2]
  norm_num

/-- **C10.** Splitting the sole photo of a singleton group yields an
`updatedGroup` with an empty photo list whose `primaryPhoto` still equals
the original group's `primaryPhoto` (the JS fallback
`updatedPhotos[0] || group.primaryPhoto` fires on `undefined`), together
with `newGroup = {id: g.id ++ "-split", photos: [p], primaryPhoto: p,
confidence: 0.5}`. -/
theorem splitPhotoFromGroup_singleton (g : PhotoGroup) (p : String)
    (h : g.photos = [p]) :
    (splitPhotoFromGroup g p).1.photos = [] ∧
    (splitPhotoFromGroup g p).1.primaryPhoto = g.primaryPhoto ∧
    (splitPhotoFromGroup g p).2 =
      ⟨g.id ++ "-split", [p], p, 0.5⟩ := by
  refine ⟨?_, ?_, rfl⟩ <;> simp [splitPhotoFromGroup, h, jsHeadOr]

/-- Witness for C10 at a concrete singleton group. -/
theorem splitPhotoFromGroup_singleton_witness :
    (splitPhotoFromGroup ⟨"item-1", ["a.jpg"], "a.jpg", 1⟩ "a.jpg").1.photos = [] ∧
    (splitPhotoFromGroup ⟨"item-1", ["a.jpg"], "a.jpg", 1⟩ "a.jpg").1.primaryPhoto = "a.jpg" ∧
    (splitPhotoFromGroup ⟨"item-1", ["a.jpg"], "a.jpg", 1⟩ "a.jpg").2 =
      ⟨"item-1" ++ "-split", ["a.jpg"], "a.jpg", 0.5⟩ :=
  splitPhotoFromGroup_singleton ⟨"item-1", ["a.jpg"], "a.jpg", 1⟩ "a.jpg" rfl

/-- **C7 counterexample.** The claim fails when the first remaining photo
is the empty string: for `g = {id := "item-1", photos := ["a", ""],
primaryPhoto := "a", confidence := 1}` (distinct photos, length 2) and
`p = "a"` (which is the primary photo), the remaining photo list is
`[""]`, yet `updatedGroup.primaryPhoto` is `"a"`, not the first remaining
photo `""` — JavaScript's `updatedPhotos[0] || group.primaryPhoto` treats
the empty string as falsy. -/
theorem splitPhotoFromGroup_empty_string_counterexample :
    (PhotoGroup.mk "item-1" ["a", ""] "a" 1).photos.Nodup ∧
    2 ≤ (PhotoGroup.mk "item-1" ["a", ""] "a" 1).photos.length ∧
    "a" ∈ (PhotoGroup.mk "item-1" ["a", ""] "a" 1).photos ∧
    (PhotoGroup.mk "item-1" ["a", ""] "a" 1).primaryPhoto = "a" ∧
    (splitPhotoFromGroup ⟨"item-1", ["a", ""], "a", 1⟩ "a").1.photos = [""] ∧
    (splitPhotoFromGroup ⟨"item-1", ["a", ""], "a", 1⟩ "a").1.primaryPhoto = "a" ∧
    "a" ≠ "" := by
  refine ⟨by decide, by decide, by decide, rfl, by decide, by decide, by decide⟩

/-- **C7 amended.** For a group with distinct photos (length ≥ 2) and
`p ∈ g.photos`: `newGroup` is the singleton `[p]` with confidence `0.5`
and id `g.id ++ "-split"` and primary `p`; `updatedGroup` no longer
contains `p` and has confidence `g.confidence * 0.9`; the two photo sets
union back to `g.photos`; and `updatedGroup.primaryPhoto` is the first
remaining photo *provided that photo is a non-empty string* (for an
empty-string first photo the JS `||` falls back to `g.primaryPhoto`). -/
theorem splitPhotoFromGroup_mem_spec (g : PhotoGroup) (p : String)
    (hnd : g.photos.Nodup) (hlen : 2 ≤ g.photos.length) (hmem : p ∈ g.photos) :
    (splitPhotoFromGroup g p).2.photos = [p] ∧
    (splitPhotoFromGroup g p).2.primaryPhoto = p ∧
    (splitPhotoFromGroup g p).2.confidence = 0.5 ∧
    (splitPhotoFromGroup g p).2.id = g.id ++ "-split" ∧
    p ∉ (splitPhotoFromGroup g p).1.photos ∧
    (splitPhotoFromGroup g p).1.confidence = g.confidence * 0.9 ∧
    (∀ q, q ∈ g.photos ↔
      q ∈ (splitPhotoFromGroup g p).1.photos ∨ q ∈ (splitPhotoFromGroup g p).2.photos) ∧
    (∀ first, (splitPhotoFromGroup g p).1.photos.head? = some first → first ≠ "" →
      (splitPhotoFromGroup g p).1.primaryPhoto = first) := by
  refine ⟨rfl, rfl, rfl, rfl, by simp [splitPhotoFromGroup], rfl, ?_, ?_⟩
  · intro q
    by_cases hq : q = p <;> simp [splitPhotoFromGroup, hq, hmem]
  · intro first hfirst hne
    simp only [splitPhotoFromGroup] at hfirst ⊢
    rw [hfirst]
    simp [jsHeadOr, hne]

/-- Witness for C7's amended claim at a concrete three-photo group. -/
theorem splitPhotoFromGroup_mem_spec_witness :
    (splitPhotoFromGroup ⟨"item-1", ["a", "b", "c"], "a", 9/10⟩ "b").2.photos = ["b"] ∧
    (splitPhotoFromGroup ⟨"item-1", ["a", "b", "c"], "a", 9/10⟩ "b").2.primaryPhoto = "b" ∧
    (splitPhotoFromGroup ⟨"item-1", ["a", "b", "c"], "a", 9/10⟩ "b").2.confidence = 0.5 ∧
    (splitPhotoFromGroup ⟨"item-1", ["a", "b", "c"], "a", 9/10⟩ "b").2.id = "item-1" ++ "-split" ∧
    "b" ∉ (splitPhotoFromGroup ⟨"item-1", ["a", "b", "c"], "a", 9/10⟩ "b").1.photos ∧
    (splitPhotoFromGroup ⟨"item-1", ["a", "b", "c"], "a", 9/10⟩ "b").1.confidence = (9/10 : ℚ) * 0.9 ∧
    (∀ q, q ∈ ["a", "b", "c"] ↔
      q ∈ (splitPhotoFromGroup ⟨"item-1", ["a", "b", "c"], "a", 9/10⟩ "b").1.photos ∨
      q ∈ (splitPhotoFromGroup ⟨"item-1", ["a", "b", "c"], "a", 9/10⟩ "b").2.photos) ∧
    (∀ first,
      (splitPhotoFromGroup ⟨"item-1", ["a", "b", "c"], "a", 9/10⟩ "b").1.photos.head? = some first →
      first ≠ "" →
      (splitPhotoFromGroup ⟨"item-1", ["a", "b", "c"], "a", 9/10⟩ "b").1.primaryPhoto = first) :=
  splitPhotoFromGroup_mem_spec ⟨"item-1", ["a", "b", "c"], "a", 9/10⟩ "b"
    (by decide) (by decide) (by decide)

/-! ## Batch behaviour of the hashing stage -/

theorem awaitAll_eq_none {σ α : Type} {f : σ → Option α} {l : List σ} {x : σ}
    (hx : x ∈ l) (hf : f x = none) : awaitAll f l = none := by
  induction l with
  | nil => cases hx
  | cons a as ih =>
    rcases List.mem_cons.mp hx with h | h
    · subst h
      simp [awaitAll, hf]
    · rw [awaitAll, ih h]
      cases f a <;> rfl

theorem awaitAll_isSome {σ α : Type} {f : σ → Option α} {l : List σ}
    (h : ∀ x ∈ l, (f x).isSome) : (awaitAll f l).isSome := by
  induction l with
  | nil => simp [awaitAll]
  | cons a as ih =>
    have ha := h a (List.mem_cons_self a as)
    have has := ih fun x hx => h x (List.mem_cons_of_mem a hx)
    rw [awaitAll]
    cases hfa : f a with
    | none => rw [hfa] at ha; cases ha
    | some y =>
      cases hrest : awaitAll f as with
      | none => rw [hrest] at has; cases has
      | some ys => rfl

/-- When the batch hashing succeeds, the produced `PhotoHash` list carries
exactly the input paths, in order. -/
theorem awaitAll_map_path (hashOf : String → Option String) :
    ∀ {paths : List String} {phs : List PhotoHash},
      awaitAll (fun p => (hashOf p).map fun h => PhotoHash.mk p h) paths = some phs →
      phs.map PhotoHash.path = paths := by
  intro paths
  induction paths with
  | nil => intro phs h; cases h; rfl
  | cons a as ih =>
    intro phs h
    rw [awaitAll] at h
    split at h
    · rename_i y ys hy hys
      cases h
      have hpath : y.path = a := by
        cases hha : hashOf a with
        | none => rw [hha] at hy; cases hy
        | some s => rw [hha] at hy; cases hy; rfl
      simp [hpath, ih hys]
    · cases h

/-- **C3 counterexample.** One failing photo aborts the whole batch: with a
hash function that fails only on `"b.jpg"`, `groupPhotosByItem` (and the
average-linkage variant) on `["a.jpg", "b.jpg", "c.jpg"]` returns no
grouping at all — the two perfectly readable photos are *not* clustered,
contradicting "the failure of one photo never aborts clustering of the
rest of the batch" (and no per-path `ImageReadError` value exists
anywhere in the function's result type). -/
theorem grouping_batch_fatal_counterexample :
    (fun p => if p = "b.jpg" then none else some "0000") "a.jpg" = some "0000" ∧
    (fun p => if p = "b.jpg" then none else some "0000") "c.jpg" = some "0000" ∧
    groupPhotosByItem (fun p => if p = "b.jpg" then none else some "0000")
      ["a.jpg", "b.jpg", "c.jpg"] (3/4) = none ∧
    groupPhotosByItemAdvanced (fun p => if p = "b.jpg" then none else some "0000")
      ["a.jpg", "b.jpg", "c.jpg"] (3/4) = none := by
  refine ⟨rfl, rfl, ?_, ?_⟩ <;> rfl

/-- **C3 amended.** A single fingerprinting failure is batch-fatal: the
source awaits `Promise.all` over all `generatePhotoHash` calls, so if any
photo's hash fails, both grouping functions reject as a whole and cluster
nothing (no per-photo exclusion, no path-tagged error reporting). -/
theorem grouping_batch_fatal (hashOf : String → Option String)
    (paths : List String) (t : ℚ) (p : String)
    (hp : p ∈ paths) (hfail : hashOf p = none) :
    groupPhotosByItem hashOf paths t = none ∧
    groupPhotosByItemAdvanced hashOf paths t = none := by
  have hne : paths.isEmpty = false := by
    cases paths with
    | nil => cases hp
    | cons a as => rfl
  have hnone : awaitAll (fun q => (hashOf q).map fun h => PhotoHash.mk q h) paths = none :=
    awaitAll_eq_none hp (by simp [hfail])
  constructor <;>
    simp [groupPhotosByItem, groupPhotosByItemAdvanced, hne, hnone]

/-- Witness for C3's amended claim at a concrete batch. -/
theorem grouping_batch_fatal_witness :
    groupPhotosByItem (fun p => if p = "x.jpg" then none else some "1111")
      ["ok.jpg", "x.jpg"] (1/2) = none ∧
    groupPhotosByItemAdvanced (fun p => if p = "x.jpg" then none else some "1111")
      ["ok.jpg", "x.jpg"] (1/2) = none :=
  grouping_batch_fatal (fun p => if p = "x.jpg" then none else some "1111")
    ["ok.jpg", "x.jpg"] (1/2) "x.jpg" (by decide) rfl

/-- **C5 amended.** Neither grouping function validates the threshold: for
any threshold outside `[0, 1]` (indeed for any threshold at all), as long
as every photo hashes successfully, the call succeeds and returns a
grouping result — there is no invalid-argument rejection at the API
boundary. -/
theorem grouping_no_threshold_validation (hashOf : String → Option String)
    (paths : List String) (t : ℚ) (hout : t < 0 ∨ 1 < t)
    (hok : ∀ p ∈ paths, (hashOf p).isSome) :
    (groupPhotosByItem hashOf paths t).isSome ∧
    (groupPhotosByItemAdvanced hashOf paths t).isSome := by
  have hsome : (awaitAll (fun q => (hashOf q).map fun h => PhotoHash.mk q h) paths).isSome :=
    awaitAll_isSome fun x hx => by simpa using hok x hx
  constructor <;>
    · simp only [groupPhotosByItem, groupPhotosByItemAdvanced]
      split_ifs <;> simp [hsome]

/-- Witness for C5's amended claim with threshold `2 > 1`. -/
theorem grouping_no_threshold_validation_witness :
    (groupPhotosByItem (fun _ => some "01") ["a.jpg", "b.jpg"] 2).isSome ∧
    (groupPhotosByItemAdvanced (fun _ => some "01") ["a.jpg", "b.jpg"] 2).isSome :=
  grouping_no_threshold_validation (fun _ => some "01") ["a.jpg", "b.jpg"] 2
    (Or.inr (by norm_num)) (fun p _ => rfl)

/-! ## The partition invariant (C1) -/

theorem greedyClusterAux_flatten_perm (t : ℚ) :
    ∀ (fuel : ℕ) (l : List PhotoHash), l.length ≤ fuel →
      (greedyClusterAux t fuel l).flatten.Perm l := by
  intro fuel
  induction fuel with
  | zero =>
    intro l hl
    have : l = [] := List.length_eq_zero.mp (Nat.le_zero.mp hl)
    subst this
    simp [greedyClusterAux]
  | succ n ih =>
    intro l hl
    cases l with
    | nil => simp [greedyClusterAux]
    | cons seed rest =>
      have hrest : rest.length ≤ n := by simpa using hl
      have hfil : (rest.filter fun c => ! greedyAccept t seed c).length ≤ n :=
        le_trans (List.length_filter_le _ _) hrest
      have hrec := ih _ hfil
      rw [greedyClusterAux]
      simp only [List.flatten_cons, List.cons_append]
      exact ((hrec.append_left _).trans (List.filter_append_perm _ _)).cons seed

theorem greedyCluster_flatten_perm (l : List PhotoHash) (t : ℚ) :
    (greedyCluster l t).flatten.Perm l :=
  greedyClusterAux_flatten_perm t l.length l le_rfl

theorem absorb_snd_length_le (t : ℚ) :
    ∀ (l grp : List PhotoHash), (absorb t grp l).2.length ≤ l.length := by
  intro l
  induction l with
  | nil => intro grp; simp [absorb]
  | cons c rest ih =>
    intro grp
    rw [absorb]
    split_ifs with h
    · exact le_trans (ih _) (Nat.le_succ _)
    · simpa using Nat.succ_le_succ (ih grp)

theorem absorb_append_perm (t : ℚ) :
    ∀ (l grp : List PhotoHash),
      ((absorb t grp l).1 ++ (absorb t grp l).2).Perm (grp ++ l) := by
  intro l
  induction l with
  | nil => intro grp; simp [absorb]
  | cons c rest ih =>
    intro grp
    rw [absorb]
    split_ifs with h
    · have := ih (grp ++ [c])
      rw [List.append_assoc] at this
      simpa using this
    · exact List.perm_middle.trans (((ih grp).cons c).trans List.perm_middle.symm)

theorem advancedClusterAux_flatten_perm (t : ℚ) :
    ∀ (fuel : ℕ) (l : List PhotoHash), l.length ≤ fuel →
      (advancedClusterAux t fuel l).flatten.Perm l := by
  intro fuel
  induction fuel with
  | zero =>
    intro l hl
    have : l = [] := List.length_eq_zero.mp (Nat.le_zero.mp hl)
    subst this
    simp [advancedClusterAux]
  | succ n ih =>
    intro l hl
    cases l with
    | nil => simp [advancedClusterAux]
    | cons seed rest =>
      have hrest : rest.length ≤ n := by simpa using hl
      have hrem : (absorb t [seed] rest).2.length ≤ n :=
        le_trans (absorb_snd_length_le t rest [seed]) hrest
      have hrec := ih _ hrem
      rw [advancedClusterAux]
      simp only [List.flatten_cons]
      exact (hrec.append_left _).trans (absorb_append_perm t rest [seed])

theorem advancedCluster_flatten_perm (l : List PhotoHash) (t : ℚ) :
    (advancedCluster l t).flatten.Perm l :=
  advancedClusterAux_flatten_perm t l.length l le_rfl

/-- The photos of the constructed groups, concatenated in order, are
exactly the paths of the clusters, concatenated in order. -/
theorem mkGroupsAux_flatMap (conf : List PhotoHash → ℚ) :
    ∀ (k : ℕ) (cs : List (List PhotoHash)),
      (mkGroupsAux conf k cs).flatMap PhotoGroup.photos =
        cs.flatten.map PhotoHash.path := by
  intro k cs
  induction cs generalizing k with
  | nil => rfl
  | cons c cs ih => simp [mkGroupsAux, ih]

theorem mkGroups_flatMap (conf : List PhotoHash → ℚ) (cs : List (List PhotoHash)) :
    (mkGroups conf cs).flatMap PhotoGroup.photos = cs.flatten.map PhotoHash.path :=
  mkGroupsAux_flatMap conf 0 cs

/-- **C1.** For every batch of distinct photo paths whose fingerprints all
compute successfully (fingerprints are 64-bit strings), both clustering
strategies return a partition of the input: the concatenation of all
groups' photo lists is a permutation of the input paths, and every input
path occurs exactly once across all groups (so it lies in exactly one
group, and the union of the groups equals the input set). -/
theorem grouping_partition (hashOf : String → Option String)
    (paths : List String) (t : ℚ)
    (hnd : paths.Nodup)
    (hlen64 : ∀ p h, hashOf p = some h → h.length = 64)
    (hok : ∀ p ∈ paths, (hashOf p).isSome) :
    ∃ gs₁ gs₂,
      groupPhotosByItem hashOf paths t = some gs₁ ∧
      groupPhotosByItemAdvanced hashOf paths t = some gs₂ ∧
      (gs₁.flatMap PhotoGroup.photos).Perm paths ∧
      (gs₂.flatMap PhotoGroup.photos).Perm paths ∧
      ∀ p ∈ paths,
        (gs₁.flatMap PhotoGroup.photos).count p = 1 ∧
        (gs₂.flatMap PhotoGroup.photos).count p = 1 := by
  rcases eq_or_ne paths [] with hnil | hnil
  · subst hnil
    exact ⟨[], [], rfl, rfl, .refl _, .refl _, by simp⟩
  · have hE : paths.isEmpty = false := by
      simpa using hnil
    have hall : (awaitAll (fun q => (hashOf q).map fun h => PhotoHash.mk q h)
        paths).isSome :=
      awaitAll_isSome fun x hx => by simpa using hok x hx
    obtain ⟨phs, hphs⟩ := Option.isSome_iff_exists.mp hall
    have hmap : phs.map PhotoHash.path = paths := awaitAll_map_path hashOf hphs
    have hperm1 : ((mkGroups greedyConfidence (greedyCluster phs t)).flatMap
        PhotoGroup.photos).Perm paths := by
      rw [mkGroups_flatMap, ← hmap]
      exact (greedyCluster_flatten_perm phs t).map PhotoHash.path
    have hperm2 : ((mkGroups calculateGroupConfidence (advancedCluster phs t)).flatMap
        PhotoGroup.photos).Perm paths := by
      rw [mkGroups_flatMap, ← hmap]
      exact (advancedCluster_flatten_perm phs t).map PhotoHash.path
    refine ⟨mkGroups greedyConfidence (greedyCluster phs t),
            mkGroups calculateGroupConfidence (advancedCluster phs t),
            ?_, ?_, hperm1, hperm2, ?_⟩
    · simp [groupPhotosByItem, hE, hphs]
    · simp [groupPhotosByItemAdvanced, hE, hphs]
    · intro p hp
      exact ⟨(hperm1.count_eq p).trans (List.count_eq_one_of_mem hnd hp),
             (hperm2.count_eq p).trans (List.count_eq_one_of_mem hnd hp)⟩

/-- Witness for C1 at a concrete two-photo batch with constant 64-bit
fingerprints. -/
theorem grouping_partition_witness :
    ∃ gs₁ gs₂,
      groupPhotosByItem
        (fun _ => some "0000000000000000000000000000000000000000000000000000000000000000")
        ["a.jpg", "b.jpg"] (3/4) = some gs₁ ∧
      groupPhotosByItemAdvanced
        (fun _ => some "0000000000000000000000000000000000000000000000000000000000000000")
        ["a.jpg", "b.jpg"] (3/4) = some gs₂ ∧
      (gs₁.flatMap PhotoGroup.photos).Perm ["a.jpg", "b.jpg"] ∧
      (gs₂.flatMap PhotoGroup.photos).Perm ["a.jpg", "b.jpg"] ∧
      ∀ p ∈ ["a.jpg", "b.jpg"],
        (gs₁.flatMap PhotoGroup.photos).count p = 1 ∧
        (gs₂.flatMap PhotoGroup.photos).count p = 1 :=
  grouping_partition
    (fun _ => some "0000000000000000000000000000000000000000000000000000000000000000")
    ["a.jpg", "b.jpg"] (3/4) (by decide)
    (fun p h hh => by injection hh with hh'; rw [← hh']; decide)
    (fun p _ => rfl)

/-! ## Threshold monotonicity (C4)

First, fuel-irrelevance and one-step unfolding equations for the two
clustering recursions (the fuel is an artifact of the embedding: any fuel
at least the list length computes the same clusters). -/

theorem greedyClusterAux_fuel_irrel (t : ℚ) :
    ∀ (f1 : ℕ) (l : List PhotoHash) (f2 : ℕ), l.length ≤ f1 → l.length ≤ f2 →
      greedyClusterAux t f1 l = greedyClusterAux t f2 l := by
  intro f1
  induction f1 with
  | zero =>
    intro l f2 h1 _
    have : l = [] := List.length_eq_zero.mp (Nat.le_zero.mp h1)
    subst this
    cases f2 <;> rfl
  | succ n ih =>
    intro l f2 h1 h2
    cases l with
    | nil => cases f2 <;> rfl
    | cons seed rest =>
      cases f2 with
      | zero => simp at h2
      | succ m =>
        have hr1 : rest.length ≤ n := by simpa using h1
        have hr2 : rest.length ≤ m := by simpa using h2
        simp only [greedyClusterAux]
        congr 1
        exact ih _ m (le_trans (List.length_filter_le _ _) hr1)
          (le_trans (List.length_filter_le _ _) hr2)

theorem greedyCluster_nil (t : ℚ) : greedyCluster [] t = [] := rfl

theorem greedyCluster_cons (t : ℚ) (seed : PhotoHash) (rest : List PhotoHash) :
    greedyCluster (seed :: rest) t =
      (seed :: rest.filter (greedyAccept t seed)) ::
        greedyCluster (rest.filter fun c => ! greedyAccept t seed c) t := by
  rw [greedyCluster, greedyCluster]
  simp only [List.length_cons, greedyClusterAux]
  congr 1
  exact greedyClusterAux_fuel_irrel t rest.length _ _
    (List.length_filter_le _ _) le_rfl

theorem advancedClusterAux_fuel_irrel (t : ℚ) :
    ∀ (f1 : ℕ) (l : List PhotoHash) (f2 : ℕ), l.length ≤ f1 → l.length ≤ f2 →
      advancedClusterAux t f1 l = advancedClusterAux t f2 l := by
  intro f1
  induction f1 with
  | zero =>
    intro l f2 h1 _
    have : l = [] := List.length_eq_zero.mp (Nat.le_zero.mp h1)
    subst this
    cases f2 <;> rfl
  | succ n ih =>
    intro l f2 h1 h2
    cases l with
    | nil => cases f2 <;> rfl
    | cons seed rest =>
      cases f2 with
      | zero => simp at h2
      | succ m =>
        have hr1 : rest.length ≤ n := by simpa using h1
        have hr2 : rest.length ≤ m := by simpa using h2
        simp only [advancedClusterAux]
        congr 1
        exact ih _ m (le_trans (absorb_snd_length_le t rest [seed]) hr1)
          (le_trans (absorb_snd_length_le t rest [seed]) hr2)

theorem advancedCluster_nil (t : ℚ) : advancedCluster [] t = [] := rfl

theorem advancedCluster_cons (t : ℚ) (seed : PhotoHash) (rest : List PhotoHash) :
    advancedCluster (seed :: rest) t =
      (absorb t [seed] rest).1 ::
        advancedCluster (absorb t [seed] rest).2 t := by
  rw [advancedCluster, advancedCluster]
  simp only [List.length_cons, advancedClusterAux]
  congr 1
  exact advancedClusterAux_fuel_irrel t rest.length _ _
    (absorb_snd_length_le t rest [seed]) le_rfl

theorem mkGroupsAux_length (conf : List PhotoHash → ℚ) :
    ∀ (k : ℕ) (cs : List (List PhotoHash)),
      (mkGroupsAux conf k cs).length = cs.length := by
  intro k cs
  induction cs generalizing k with
  | nil => rfl
  | cons c cs ih => simp [mkGroupsAux, ih]

theorem mkGroups_length (conf : List PhotoHash → ℚ) (cs : List (List PhotoHash)) :
    (mkGroups conf cs).length = cs.length :=
  mkGroupsAux_length conf 0 cs

/-- A candidate accepted at the higher threshold is accepted at the lower
one. -/
theorem greedyAccept_mono {t1 t2 : ℚ} (h12 : t1 ≤ t2) (s c : PhotoHash)
    (h : greedyAccept t2 s c = true) : greedyAccept t1 s c = true := by
  unfold greedyAccept at h ⊢
  rw [decide_eq_true_eq] at h ⊢
  exact le_trans h12 h

/-- Group count of the greedy strategy on a two-photo batch. -/
theorem greedyCluster_pair_length (t : ℚ) (a b : PhotoHash) :
    (greedyCluster [a, b] t).length =
      if greedyAccept t a b = true then 1 else 2 := by
  by_cases h : greedyAccept t a b = true <;>
    simp [greedyCluster_cons, greedyCluster_nil, List.filter_cons, h]

/-- Group count of the greedy strategy on a three-photo batch. -/
theorem greedyCluster_triple_length (t : ℚ) (a b c : PhotoHash) :
    (greedyCluster [a, b, c] t).length =
      if greedyAccept t a b = true then
        (if greedyAccept t a c = true then 1 else 2)
      else if greedyAccept t a c = true then 2
      else if greedyAccept t b c = true then 2 else 3 := by
  by_cases hab : greedyAccept t a b = true <;>
  by_cases hac : greedyAccept t a c = true <;>
  by_cases hbc : greedyAccept t b c = true <;>
    simp [greedyCluster_cons, greedyCluster_nil, List.filter_cons, hab, hac, hbc]

/-- Group count of the average-linkage strategy on a two-photo batch. -/
theorem advancedCluster_pair_length (t : ℚ) (a b : PhotoHash) :
    (advancedCluster [a, b] t).length =
      if avgSimilarity [a] b ≥ t then 1 else 2 := by
  by_cases h : avgSimilarity [a] b ≥ t <;>
    simp [advancedCluster_cons, advancedCluster_nil, absorb, h]

/-- Group count of the average-linkage strategy on a three-photo batch. -/
theorem advancedCluster_triple_length (t : ℚ) (a b c : PhotoHash) :
    (advancedCluster [a, b, c] t).length =
      if avgSimilarity [a] b ≥ t then
        (if avgSimilarity [a, b] c ≥ t then 1 else 2)
      else if avgSimilarity [a] c ≥ t then 2
      else if avgSimilarity [b] c ≥ t then 2 else 3 := by
  by_cases h1 : avgSimilarity [a] b ≥ t <;>
  by_cases h2 : avgSimilarity [a, b] c ≥ t <;>
  by_cases h3 : avgSimilarity [a] c ≥ t <;>
  by_cases h4 : avgSimilarity [b] c ≥ t <;>
    simp [advancedCluster_cons, advancedCluster_nil, absorb, h1, h2, h3, h4]

/-- For batches of at most three photos, the greedy group count is
monotone in the threshold. -/
theorem greedyCluster_length_mono_of_small (l : List PhotoHash) {t1 t2 : ℚ}
    (hsmall : l.length ≤ 3) (h12 : t1 ≤ t2) :
    (greedyCluster l t1).length ≤ (greedyCluster l t2).length := by
  rcases l with _ | ⟨a, _ | ⟨b, _ | ⟨c, _ | ⟨d, tl⟩⟩⟩⟩
  · simp [greedyCluster_nil]
  · simp [greedyCluster_cons, greedyCluster_nil]
  · rw [greedyCluster_pair_length, greedyCluster_pair_length]
    by_cases h2 : greedyAccept t2 a b = true
    · simp [greedyAccept_mono h12 a b h2, h2]
    · by_cases h1 : greedyAccept t1 a b = true <;> simp [h1, h2]
  · rw [greedyCluster_triple_length, greedyCluster_triple_length]
    by_cases hab2 : greedyAccept t2 a b = true <;>
    by_cases hac2 : greedyAccept t2 a c = true <;>
    by_cases hbc2 : greedyAccept t2 b c = true <;>
    by_cases hab1 : greedyAccept t1 a b = true <;>
    by_cases hac1 : greedyAccept t1 a c = true <;>
    by_cases hbc1 : greedyAccept t1 b c = true <;>
      first
        | exact absurd (greedyAccept_mono h12 a b hab2) hab1
        | exact absurd (greedyAccept_mono h12 a c hac2) hac1
        | exact absurd (greedyAccept_mono h12 b c hbc2) hbc1
        | simp [hab1, hac1, hbc1, hab2, hac2, hbc2]
  · simp at hsmall

/-- For batches of at most three photos, the average-linkage group count
is monotone in the threshold. -/
theorem advancedCluster_length_mono_of_small (l : List PhotoHash) {t1 t2 : ℚ}
    (hsmall : l.length ≤ 3) (h12 : t1 ≤ t2) :
    (advancedCluster l t1).length ≤ (advancedCluster l t2).length := by
  have mono : ∀ x : ℚ, x ≥ t2 → x ≥ t1 := fun x h => le_trans h12 h
  rcases l with _ | ⟨a, _ | ⟨b, _ | ⟨c, _ | ⟨d, tl⟩⟩⟩⟩
  · simp [advancedCluster_nil]
  · simp [advancedCluster_cons, advancedCluster_nil, absorb]
  · rw [advancedCluster_pair_length, advancedCluster_pair_length]
    by_cases h2 : avgSimilarity [a] b ≥ t2
    · simp [mono _ h2, h2]
    · by_cases h1 : avgSimilarity [a] b ≥ t1 <;> simp [h1, h2]
  · rw [advancedCluster_triple_length, advancedCluster_triple_length]
    by_cases hab2 : avgSimilarity [a] b ≥ t2 <;>
    by_cases hm2 : avgSimilarity [a, b] c ≥ t2 <;>
    by_cases hac2 : avgSimilarity [a] c ≥ t2 <;>
    by_cases hbc2 : avgSimilarity [b] c ≥ t2 <;>
    by_cases hab1 : avgSimilarity [a] b ≥ t1 <;>
    by_cases hm1 : avgSimilarity [a, b] c ≥ t1 <;>
    by_cases hac1 : avgSimilarity [a] c ≥ t1 <;>
    by_cases hbc1 : avgSimilarity [b] c ≥ t1 <;>
      first
        | exact absurd (mono _ hab2) hab1
        | exact absurd (mono _ hm2) hm1
        | exact absurd (mono _ hac2) hac1
        | exact absurd (mono _ hbc2) hbc1
        | simp [hab1, hm1, hac1, hbc1, hab2, hm2, hac2, hbc2]
  · simp at hsmall

/-- **C4 amended.** Raising the threshold never decreases the group count
for batches of at most three photos, for both strategies.  (For four or
more photos, monotonicity fails — see the counterexample below: a photo
stolen early by a low-threshold seed can leave photos split across more
groups than a high-threshold run that lets a later seed collect them.) -/
theorem grouping_monotone_of_small_batch (hashOf : String → Option String)
    (paths : List String) (t1 t2 : ℚ)
    (gs1 gs2 gs1' gs2' : List PhotoGroup)
    (hsmall : paths.length ≤ 3) (h12 : t1 ≤ t2)
    (e1 : groupPhotosByItem hashOf paths t1 = some gs1)
    (e2 : groupPhotosByItem hashOf paths t2 = some gs2)
    (e1' : groupPhotosByItemAdvanced hashOf paths t1 = some gs1')
    (e2' : groupPhotosByItemAdvanced hashOf paths t2 = some gs2') :
    gs1.length ≤ gs2.length ∧ gs1'.length ≤ gs2'.length := by
  rcases eq_or_ne paths [] with hnil | hnil
  · subst hnil
    simp only [groupPhotosByItem, groupPhotosByItemAdvanced, List.isEmpty_nil,
      if_true, Option.some.injEq] at e1 e2 e1' e2'
    subst e1; subst e2; subst e1'; subst e2'
    simp
  · have hE : paths.isEmpty = false := by simpa using hnil
    simp only [groupPhotosByItem, groupPhotosByItemAdvanced, hE,
      Bool.false_eq_true, if_false] at e1 e2 e1' e2'
    cases hA : awaitAll (fun path => (hashOf path).map fun h => PhotoHash.mk path h) paths with
    | none =>
      rw [hA] at e1
      simp at e1
    | some phs =>
      rw [hA] at e1 e2 e1' e2'
      simp only [Option.map_some', Option.some.injEq] at e1 e2 e1' e2'
      subst e1; subst e2; subst e1'; subst e2'
      have hplen : phs.length ≤ 3 := by
        have hmp := awaitAll_map_path hashOf hA
        have hl : phs.length = paths.length := by
          rw [← hmp]
          exact (List.length_map _ _).symm
        rw [hl]
        exact hsmall
      constructor
      · rw [mkGroups_length, mkGroups_length]
        exact greedyCluster_length_mono_of_small phs hplen h12
      · rw [mkGroups_length, mkGroups_length]
        exact advancedCluster_length_mono_of_small phs hplen h12

/-- Witness for C4's amended claim: a one-photo batch at thresholds
`1/4 ≤ 1/2`. -/
theorem grouping_monotone_of_small_batch_witness :
    (["a.jpg"] : List String).length ≤ 3 ∧ ((1 : ℚ)/4 ≤ 1/2) ∧
    ([PhotoGroup.mk "item-1" ["a.jpg"] "a.jpg" 0.5].length ≤
        [PhotoGroup.mk "item-1" ["a.jpg"] "a.jpg" 0.5].length ∧
      [PhotoGroup.mk "item-1" ["a.jpg"] "a.jpg" 0.5].length ≤
        [PhotoGroup.mk "item-1" ["a.jpg"] "a.jpg" 0.5].length) :=
  ⟨by decide, by norm_num,
   grouping_monotone_of_small_batch (fun _ => some "01") ["a.jpg"] (1/4) (1/2)
     [PhotoGroup.mk "item-1" ["a.jpg"] "a.jpg" 0.5]
     [PhotoGroup.mk "item-1" ["a.jpg"] "a.jpg" 0.5]
     [PhotoGroup.mk "item-1" ["a.jpg"] "a.jpg" 0.5]
     [PhotoGroup.mk "item-1" ["a.jpg"] "a.jpg" 0.5]
     (by decide) (by norm_num) rfl rfl rfl rfl⟩

/-- **C4 counterexample.** Monotonicity fails for the greedy strategy on a
four-photo batch: with the fingerprints of `cxHash` (pairwise similarities
`s(1,2) = 1/2`, `s(1,3) = s(1,4) = s(3,4) = 2/5`, `s(2,3) = s(2,4) =
7/10`), threshold `1/2` produces 3 groups (`{p1,p2}, {p3}, {p4}` — the
seed `p1` steals `p2`) while the *higher* threshold `7/10` produces only 2
groups (`{p1}, {p2,p3,p4}` — `p2` is left free to collect `p3` and `p4`).
So raising the threshold from `1/2` to `7/10` *decreases* the group count
from 3 to 2, refuting the claim. -/
theorem grouping_monotonicity_counterexample :
    ((1 : ℚ)/2 ≤ 7/10) ∧
    (groupPhotosByItem cxHash cxPaths (1/2)).map List.length = some 3 ∧
    (groupPhotosByItem cxHash cxPaths (7/10)).map List.length = some 2 := by
  have e12 : similarityT "11000011000011111100" "00000000000000000000" =
      1 - (10 : ℚ)/20 := similarityT_eval _ _ 10 20 (by decide) (by decide)
  have e13 : similarityT "11000011000011111100" "11111100000000000000" =
      1 - (12 : ℚ)/20 := similarityT_eval _ _ 12 20 (by decide) (by decide)
  have e14 : similarityT "11000011000011111100" "00000011111100000000" =
      1 - (12 : ℚ)/20 := similarityT_eval _ _ 12 20 (by decide) (by decide)
  have e23 : similarityT "00000000000000000000" "11111100000000000000" =
      1 - (6 : ℚ)/20 := similarityT_eval _ _ 6 20 (by decide) (by decide)
  have e24 : similarityT "00000000000000000000" "00000011111100000000" =
      1 - (6 : ℚ)/20 := similarityT_eval _ _ 6 20 (by decide) (by decide)
  have e34 : similarityT "11111100000000000000" "00000011111100000000" =
      1 - (12 : ℚ)/20 := similarityT_eval _ _ 12 20 (by decide) (by decide)
  have a12 : greedyAccept (1/2) (PhotoHash.mk "p1" "11000011000011111100")
      (PhotoHash.mk "p2" "00000000000000000000") = true := by
    unfold greedyAccept; norm_num [e12]
  have a13 : greedyAccept (1/2) (PhotoHash.mk "p1" "11000011000011111100")
      (PhotoHash.mk "p3" "11111100000000000000") = false := by
    unfold greedyAccept; norm_num [e13]
  have a14 : greedyAccept (1/2) (PhotoHash.mk "p1" "11000011000011111100")
      (PhotoHash.mk "p4" "00000011111100000000") = false := by
    unfold greedyAccept; norm_num [e14]
  have a34 : greedyAccept (1/2) (PhotoHash.mk "p3" "11111100000000000000")
      (PhotoHash.mk "p4" "00000011111100000000") = false := by
    unfold greedyAccept; norm_num [e34]
  have b12 : greedyAccept (7/10) (PhotoHash.mk "p1" "11000011000011111100")
      (PhotoHash.mk "p2" "00000000000000000000") = false := by
    unfold greedyAccept; norm_num [e12]
  have b13 : greedyAccept (7/10) (PhotoHash.mk "p1" "11000011000011111100")
      (PhotoHash.mk "p3" "11111100000000000000") = false := by
    unfold greedyAccept; norm_num [e13]
  have b14 : greedyAccept (7/10) (PhotoHash.mk "p1" "11000011000011111100")
      (PhotoHash.mk "p4" "00000011111100000000") = false := by
    unfold greedyAccept; norm_num [e14]
  have b23 : greedyAccept (7/10) (PhotoHash.mk "p2" "00000000000000000000")
      (PhotoHash.mk "p3" "11111100000000000000") = true := by
    unfold greedyAccept; norm_num [e23]
  have b24 : greedyAccept (7/10) (PhotoHash.mk "p2" "00000000000000000000")
      (PhotoHash.mk "p4" "00000011111100000000") = true := by
    unfold greedyAccept; norm_num [e24]
  have hrun1 : groupPhotosByItem cxHash cxPaths (1/2) =
      some (mkGroups greedyConfidence (greedyCluster
        [PhotoHash.mk "p1" "11000011000011111100",
         PhotoHash.mk "p2" "00000000000000000000",
         PhotoHash.mk "p3" "11111100000000000000",
         PhotoHash.mk "p4" "00000011111100000000"] (1/2))) := rfl
  have hrun2 : groupPhotosByItem cxHash cxPaths (7/10) =
      some (mkGroups greedyConfidence (greedyCluster
        [PhotoHash.mk "p1" "11000011000011111100",
         PhotoHash.mk "p2" "00000000000000000000",
         PhotoHash.mk "p3" "11111100000000000000",
         PhotoHash.mk "p4" "00000011111100000000"] (7/10))) := rfl
  refine ⟨by norm_num, ?_, ?_⟩
  · rw [hrun1, Option.map_some', Option.some.injEq, mkGroups_length]
    simp only [greedyCluster_cons, greedyCluster_nil, List.filter_cons, List.filter_nil,
      a12, a13, a14, a34, Bool.not_true, Bool.not_false, Bool.false_eq_true,
      eq_self_iff_true, if_true, if_false, List.length_cons, List.length_nil]
  · rw [hrun2, Option.map_some', Option.some.injEq, mkGroups_length]
    simp only [greedyCluster_cons, greedyCluster_nil, List.filter_cons, List.filter_nil,
      b12, b13, b14, b23, b24, Bool.not_true, Bool.not_false, Bool.false_eq_true,
      eq_self_iff_true, if_true, if_false, List.length_cons, List.length_nil]

/-- **C5 counterexample.** The threshold `2` lies outside `[0,1]`, yet
`groupPhotosByItem` happily returns a grouping result: two singleton
groups (no similarity can reach `2`).  Moreover the value is used as
given, not clamped: at threshold `1` the same batch (two identical
fingerprints, similarity exactly `1`) collapses into a single group, so a
clamp to `[0,1]` would have produced 1 group, not 2. -/
theorem grouping_threshold_not_rejected_counterexample :
    ¬ ((2 : ℚ) ≤ 1) ∧
    (groupPhotosByItem (fun _ => some "01") ["a.jpg", "b.jpg"] 2).map List.length =
      some 2 ∧
    (groupPhotosByItem (fun _ => some "01") ["a.jpg", "b.jpg"] 1).map List.length =
      some 1 := by
  have e : similarityT "01" "01" = 1 - (0 : ℚ)/2 :=
    similarityT_eval _ _ 0 2 (by decide) (by decide)
  have acc2 : greedyAccept 2 (PhotoHash.mk "a.jpg" "01") (PhotoHash.mk "b.jpg" "01") = false := by
    unfold greedyAccept; norm_num [e]
  have acc1 : greedyAccept 1 (PhotoHash.mk "a.jpg" "01") (PhotoHash.mk "b.jpg" "01") = true := by
    unfold greedyAccept; norm_num [e]
  have hrun2 : groupPhotosByItem (fun _ => some "01") ["a.jpg", "b.jpg"] 2 =
      some (mkGroups greedyConfidence (greedyCluster
        [PhotoHash.mk "a.jpg" "01", PhotoHash.mk "b.jpg" "01"] 2)) := rfl
  have hrun1 : groupPhotosByItem (fun _ => some "01") ["a.jpg", "b.jpg"] 1 =
      some (mkGroups greedyConfidence (greedyCluster
        [PhotoHash.mk "a.jpg" "01", PhotoHash.mk "b.jpg" "01"] 1)) := rfl
  refine ⟨by norm_num, ?_, ?_⟩
  · rw [hrun2, Option.map_some', Option.some.injEq, mkGroups_length]
    simp only [greedyCluster_cons, greedyCluster_nil, List.filter_cons, List.filter_nil,
      acc2, Bool.not_true, Bool.not_false, Bool.false_eq_true,
      eq_self_iff_true, if_true, if_false, List.length_cons, List.length_nil]
  · rw [hrun1, Option.map_some', Option.some.injEq, mkGroups_length]
    simp only [greedyCluster_cons, greedyCluster_nil, List.filter_cons, List.filter_nil,
      acc1, Bool.not_true, Bool.not_false, Bool.false_eq_true,
      eq_self_iff_true, if_true, if_false, List.length_cons, List.length_nil]
